import Mathlib

/-!
Verification of `visualize_all.py`, a one-shot batch converter from
TimeML-annotated `.tml` XML files to a single tabbed HTML report.

The development shallowly embeds the script:

* Python dictionaries become association lists (`dictInsert` / `dictLookup`)
  with Python semantics: assigning to an existing key overwrites the value in
  place, a fresh key is appended at the end, iteration order is insertion
  order.
* The outcome of reading and XML-parsing a file is a `FileContent` value:
  either the read raises, or `ET.parse` raises after a successful read, or a
  parsed element tree is available.  The element tree itself is `XElem`,
  with `findall` performing the document-order descendant search of
  `ElementTree.findall('.//TAG')`.
* The generated HTML document is modelled as the ordered list of emitted
  template fragments (`Chunk`).  Each constructor stands for one literal
  f-string chunk of the source; its arguments are exactly the values the
  source interpolates into that chunk.
* The observable I/O of a run (file reads, the single output write, printed
  messages) is modelled as a trace of `Effect`s.
-/

set_option autoImplicit false

/-! ## Python-style dictionaries as association lists -/
/-- Lookup of the first entry with the given key (Python dict keys are unique,
so this is the dict lookup). -/
def dictLookup {K V : Type} [DecidableEq K] : List (K × V) → K → Option V
  | [], _ => none
  | p :: rest, k => if p.1 = k then some p.2 else dictLookup rest k

/-- Python `d[k] = v`: overwrite in place when the key is present, append a
new entry otherwise. -/
def dictInsert {K V : Type} [DecidableEq K] (d : List (K × V)) (k : K) (v : V) :
    List (K × V) :=
  if d.any (fun p => p.1 = k) then
    d.map (fun p => if p.1 = k then (k, v) else p)
  else
    d ++ [(k, v)]

/-- Keys of the dictionary, in iteration order. -/
def dictKeys {K V : Type} (d : List (K × V)) : List K := d.map (·.1)

/-! ## XML element trees (`xml.etree.ElementTree`) -/
/-- An XML element: tag, attribute list, optional text before the first
child, child elements, and optional tail text following the element
(exactly the fields of `xml.etree.ElementTree.Element` the script uses). -/
inductive XElem : Type where
  | mk (tag : String) (attrs : List (String × String)) (text : Option String)
      (children : List XElem) (tail : Option String)

def XElem.tag : XElem → String
  | .mk t _ _ _ _ => t

def XElem.attrs : XElem → List (String × String)
  | .mk _ a _ _ _ => a

def XElem.text : XElem → Option String
  | .mk _ _ t _ _ => t

def XElem.children : XElem → List XElem
  | .mk _ _ _ c _ => c

def XElem.tail : XElem → Option String
  | .mk _ _ _ _ t => t

/-- Python `element.get(key)`: the attribute value, or `None` when absent. -/
def XElem.xget (e : XElem) (key : String) : Option String :=
  dictLookup e.attrs key

mutual

/-- All proper descendants of an element in document order (what
`ElementTree` enumerates for a `.//TAG` path, before tag filtering). -/
def XElem.descendants : XElem → List XElem
  | .mk _ _ _ cs _ => descendantsList cs

/-- Concatenation of each element followed by its own descendants. -/
def descendantsList : List XElem → List XElem
  | [] => []
  | c :: rest => c :: (XElem.descendants c ++ descendantsList rest)

end

/-- Python `root.findall('.//TAG')`: descendants with the given tag,
in document order. -/
def findall (root : XElem) (t : String) : List XElem :=
  root.descendants.filter (fun e => e.tag = t)

/-! ## Python truthiness and stringification helpers -/
/-- Python truthiness of an optional string: `None` and `''` are falsy. -/
def truthy : Option String → Bool
  | none => false
  | some s => s ≠ ""

/-- How an f-string renders an optional-string value (`None` prints as
the text `None`). -/
def pyStr : Option String → String
  | none => "None"
  | some s => s

/-- Python `x or ''` applied to an optional string. -/
def textOrEmpty : Option String → String
  | none => ""
  | some s => s

/-- The list of fragments contributed by `if x: result.append(x)` for an
optional string `x` (nothing when `x` is falsy). -/
def pyTextList : Option String → List String
  | none => []
  | some s => if s = "" then [] else [s]

/-- Python `a or b` on two optional strings: `b` when `a` is falsy. -/
def pyOr (a b : Option String) : Option String :=
  if truthy a then a else b

/-! ## The three flat record types extracted by `TempEvalParser.parse_file` -/
/-- Record stored in `self.events[eid]` (source lines 47-56). -/
structure EventRec where
  text : String
  cls : Option String
  tense : Option String
  aspect : Option String
  polarity : Option String
  pos : Option String
  stem : Option String
  mainevent : Option String
deriving DecidableEq, Repr

/-- Record stored in `self.timexes[tid]` (source lines 61-66).  The source
field `type` is spelled `typ` here because `type` is a Lean keyword. -/
structure TimexRec where
  text : String
  typ : Option String
  value : Option String
  functionInDocument : Option String
deriving DecidableEq, Repr

/-- Record appended to `self.tlinks` (source lines 70-78). -/
structure TLinkRec where
  lid : Option String
  relType : Option String
  eventID : Option String
  timeID : Option String
  relatedToEvent : Option String
  relatedToTime : Option String
  task : Option String
deriving DecidableEq, Repr

/-- Extraction of one `EVENT` element (source lines 46-56). -/
def mkEventRec (e : XElem) : EventRec :=
  { text := textOrEmpty e.text
    cls := e.xget "class"
    tense := e.xget "tense"
    aspect := e.xget "aspect"
    polarity := e.xget "polarity"
    pos := e.xget "pos"
    stem := e.xget "stem"
    mainevent := e.xget "mainevent" }

/-- Extraction of one `TIMEX3` element (source lines 60-66). -/
def mkTimexRec (e : XElem) : TimexRec :=
  { text := textOrEmpty e.text
    typ := e.xget "type"
    value := e.xget "value"
    functionInDocument := e.xget "functionInDocument" }

/-- Extraction of one `TLINK` element (source lines 70-78). -/
def mkTLinkRec (e : XElem) : TLinkRec :=
  { lid := e.xget "lid"
    relType := e.xget "relType"
    eventID := e.xget "eventID"
    timeID := e.xget "timeID"
    relatedToEvent := e.xget "relatedToEvent"
    relatedToTime := e.xget "relatedToTime"
    task := e.xget "task" }

/-! ## The parser state -/
/-- The fields of a `TempEvalParser` object after `__init__` ran
`parse_file`.  Events and timexes are Python dicts keyed by the
(possibly absent) `eid` / `tid` attribute value. -/
structure TempEvalParser where
  filepath : String
  events : List (Option String × EventRec)
  timexes : List (Option String × TimexRec)
  tlinks : List TLinkRec
  sentences : List String
  raw_xml : Option String
deriving DecidableEq, Repr

/-- What reading and XML-parsing an input file can yield: the read itself
raises, `ET.parse` raises after a successful read, or a parsed tree. -/
inductive FileContent : Type where
  | unreadable (errMsg : String)
  | unparsable (raw : String) (errMsg : String)
  | parsed (raw : String) (root : XElem)

/-- An input `.tml` file: `filepath.name`, `str(filepath)`, and the outcome
of reading/parsing it. -/
structure InputFile where
  name : String
  path : String
  content : FileContent

/-- Dictionary of events built from the `EVENT` descendants
(source lines 45-56): later elements with the same `eid` overwrite
earlier ones. -/
def parseEvents (root : XElem) : List (Option String × EventRec) :=
  (findall root "EVENT").foldl
    (fun d e => dictInsert d (e.xget "eid") (mkEventRec e)) []

/-- Dictionary of time expressions built from the `TIMEX3` descendants
(source lines 59-66). -/
def parseTimexes (root : XElem) : List (Option String × TimexRec) :=
  (findall root "TIMEX3").foldl
    (fun d e => dictInsert d (e.xget "tid") (mkTimexRec e)) []

/-- Fragments a single child of a sentence contributes in
`_render_sentence` (source lines 94-111): two `span`s for `EVENT` and
`TIMEX3` children, nothing for other tags. -/
def renderChild (events : List (Option String × EventRec))
    (timexes : List (Option String × TimexRec)) (c : XElem) : List String :=
  if c.tag = "EVENT" then
    let eid := c.xget "eid"
    let text := textOrEmpty c.text
    let eventClass : String :=
      match dictLookup events eid with
      | none => ""
      | some r => pyStr r.cls
    let title := "ID: " ++ pyStr eid ++ ", Class: " ++ eventClass
    [ "<span class=\"event\" data-id=\"" ++ pyStr eid ++ "\" title=\"" ++
        title ++ "\">" ++ text ++ "</span>"
    , "<span class=\"event-id\">[" ++ pyStr eid ++ "]</span>" ]
  else if c.tag = "TIMEX3" then
    let tid := c.xget "tid"
    let text := textOrEmpty c.text
    let timexValue : String :=
      match dictLookup timexes tid with
      | none => ""
      | some r => pyStr r.value
    let title := "ID: " ++ pyStr tid ++ ", Value: " ++ timexValue
    [ "<span class=\"timex\" data-id=\"" ++ pyStr tid ++ "\" title=\"" ++
        title ++ "\">" ++ text ++ "</span>"
    , "<span class=\"timex-id\">[" ++ pyStr tid ++ "]</span>" ]
  else
    []

/-- `_render_sentence` (source lines 87-113): leading text, then per child
its markup fragments followed by its tail text, all joined. -/
def renderSentence (events : List (Option String × EventRec))
    (timexes : List (Option String × TimexRec)) (e : XElem) : String :=
  String.join
    (pyTextList e.text ++
      e.children.flatMap (fun c => renderChild events timexes c ++ pyTextList c.tail))

/-- `TempEvalParser.parse_file` (source lines 34-85), as the parser state it
leaves behind.  On any exception the extracted collections stay empty; when
the raw read succeeded before `ET.parse` raised, `raw_xml` is already set. -/
def parse_file (filepath : String) (c : FileContent) : TempEvalParser :=
  match c with
  | .unreadable _ =>
      { filepath := filepath, events := [], timexes := [], tlinks := []
        sentences := [], raw_xml := none }
  | .unparsable raw _ =>
      { filepath := filepath, events := [], timexes := [], tlinks := []
        sentences := [], raw_xml := some raw }
  | .parsed raw root =>
      let events := parseEvents root
      let timexes := parseTimexes root
      { filepath := filepath
        events := events
        timexes := timexes
        tlinks := (findall root "TLINK").map mkTLinkRec
        sentences := (findall root "s").map (renderSentence events timexes)
        raw_xml := some raw }

/-- `get_plain_text` (source lines 115-133): re-parse the file; on any
exception return the empty string; otherwise join the visible text of every
sentence, stripped, one sentence per line. -/
def get_plain_text (c : FileContent) : String :=
  match c with
  | .parsed _ root =>
      String.intercalate "\n"
        ((findall root "s").map (fun s =>
          (String.join
            (pyTextList s.text ++
              s.children.flatMap (fun ch => pyTextList ch.text ++ pyTextList ch.tail))).trim))
  | _ => ""

/-! ## `get_graph_data` (source lines 135-174) -/
/-- A graph node dict: event nodes carry a `class` entry, timex nodes a
`value` entry (source lines 142-148 and 152-158). -/
inductive GNode : Type where
  | event (id : Option String) (label : String) (fullText : String)
      (cls : Option String)
  | timex (id : Option String) (label : String) (fullText : String)
      (value : Option String)
deriving DecidableEq, Repr

/-- The `id` entry of a graph node. -/
def GNode.id : GNode → Option String
  | .event i _ _ _ => i
  | .timex i _ _ _ => i

/-- The `fullText` entry of a graph node. -/
def GNode.fullText : GNode → String
  | .event _ _ t _ => t
  | .timex _ _ t _ => t

/-- A graph link dict (source lines 166-172): indices into the node list
plus the resolved endpoint ids and the relation type. -/
structure GLink where
  source : Nat
  target : Nat
  relation : Option String
  sourceId : Option String
  targetId : Option String
deriving DecidableEq, Repr

/-- Appending one node and recording `node_ids[id] = len(nodes)`
(source lines 140-141 and 150-151). -/
def pushNode (acc : List GNode × List (Option String × Nat))
    (k : Option String) (n : GNode) :
    List GNode × List (Option String × Nat) :=
  (acc.1 ++ [n], dictInsert acc.2 k acc.1.length)

/-- The node list and the `node_ids` index map of `get_graph_data`
(source lines 137-158): event nodes first, then timex nodes. -/
def buildNodes (p : TempEvalParser) :
    List GNode × List (Option String × Nat) :=
  let s1 := p.events.foldl
    (fun acc kv =>
      pushNode acc kv.1 (.event kv.1 (kv.2.text.take 15) kv.2.text kv.2.cls))
    ([], [])
  p.timexes.foldl
    (fun acc kv =>
      pushNode acc kv.1 (.timex kv.1 (kv.2.text.take 15) kv.2.text kv.2.value))
    s1

/-- The link a single tlink contributes (source lines 161-172): endpoints
resolved with Python `or`, kept only when both are truthy and present in
`node_ids`. -/
def mkLink (nodeIds : List (Option String × Nat)) (t : TLinkRec) :
    Option GLink :=
  let src := pyOr t.eventID t.timeID
  let tgt := pyOr t.relatedToEvent t.relatedToTime
  if truthy src && truthy tgt then
    match dictLookup nodeIds src, dictLookup nodeIds tgt with
    | some si, some ti =>
        some { source := si, target := ti, relation := t.relType
               sourceId := src, targetId := tgt }
    | _, _ => none
  else
    none

/-- `get_graph_data` (source lines 135-174). -/
def get_graph_data (p : TempEvalParser) : List GNode × List GLink :=
  let nb := buildNodes p
  (nb.1, p.tlinks.filterMap (mkLink nb.2))

/-! ## Per-file aggregation in `generate_multi_file_html`
(source lines 186-214) -/
/-- Python `set.add` on a set modelled as a duplicate-free list. -/
def setAdd (l : List String) (s : String) : List String :=
  if s ∈ l then l else l ++ [s]

/-- Insertion into an ascending list, comparing strings the way Python
compares them (lexicographically by code point). -/
def insertSorted (s : String) : List String → List String
  | [] => [s]
  | x :: xs =>
      match compare s x with
      | .gt => x :: insertSorted s xs
      | _ => s :: x :: xs

/-- Python `sorted` on a list of strings. -/
def sortStrings (l : List String) : List String :=
  l.foldr insertSorted []

/-- The truthy `task` attribute values of a parser's tlinks, in order
(the values the loop at source lines 194-199 adds to the task sets). -/
def taskValues (p : TempEvalParser) : List String :=
  p.tlinks.filterMap (fun t =>
    match t.task with
    | some v => if v = "" then none else some v
    | none => none)

/-- The per-file `task_counts` dict (source lines 193-199), seeded with
`A`, `B`, `C` at zero. -/
def taskCountsOf (p : TempEvalParser) : List (String × Nat) :=
  (taskValues p).foldl
    (fun d v => dictInsert d v ((dictLookup d v).getD 0 + 1))
    [("A", 0), ("B", 0), ("C", 0)]

/-- The per-file `tasks` set (source lines 192-198). -/
def taskSetOf (p : TempEvalParser) : List String :=
  (taskValues p).foldl setAdd []

/-- One entry of `all_data` (source lines 201-214). -/
structure FileData where
  filename : String
  filepath : String
  events : Nat
  timexes : Nat
  tlinks : Nat
  sentences : List String
  nodes : List GNode
  links : List GLink
  tasks : String
  task_counts : List (String × Nat)
  plain_text : String
  raw_xml : String
deriving DecidableEq, Repr

/-- The `all_data` entry built for one input file in the processing loop
(source lines 186-214). -/
def dataOf (f : InputFile) : FileData :=
  let p := parse_file f.path f.content
  let gd := get_graph_data p
  { filename := f.name
    filepath := f.path
    events := p.events.length
    timexes := p.timexes.length
    tlinks := p.tlinks.length
    sentences := p.sentences
    nodes := gd.1
    links := gd.2
    tasks := String.intercalate "," (sortStrings (taskSetOf p))
    task_counts := taskCountsOf p
    plain_text := get_plain_text f.content
    raw_xml := textOrEmpty p.raw_xml }

/-- The full `all_data` list: one entry per input file, in input order. -/
def allData (files : List InputFile) : List FileData :=
  files.map dataOf

/-- `global_tasks` (source lines 184, 194-198): task labels accumulated
across every file, in first-appearance order. -/
def globalTasks (files : List InputFile) : List String :=
  files.foldl
    (fun g f => (taskValues (parse_file f.path f.content)).foldl setAdd g) []

/-! ## The emitted HTML document as a list of template chunks
(source lines 232-937 within `generate_multi_file_html`) -/
/-- The six relation types of the legend and the colour tables
(source lines 787-829 and 1130-1137). -/
def relationTypes : List String :=
  ["BEFORE", "AFTER", "OVERLAP", "BEFORE-OR-OVERLAP", "OVERLAP-OR-AFTER",
   "VAGUE"]

/-- One emitted fragment of the output HTML.  Each constructor stands for a
literal template piece of the source; constructor arguments are exactly the
values the source interpolates into that piece.  `d3Cdn` is the
`script src` tag pointing at the d3js.org CDN (source line 639), the only
fragment of the whole template whose text makes the browser fetch an
external network resource (the `credits` block contains plain hyperlink
anchors, which are not loaded when viewing). -/
inductive Chunk : Type where
  | docHead (fileCount : Nat)
  | d3Inline (src : String)
  | d3Cdn
  | bodyTop (fileCount : Nat)
  | credits
  | statsBar (fileCount totalEvents totalTimexes totalTlinks : Nat)
  | controls
  | tabsOpen
  | tabButton (index : Nat) (active : Bool) (filename : String)
      (events timexes tlinks sentenceCount : Nat) (tasksAttr : String)
  | tabsClose
  | tabContentOpen (index : Nat) (active : Bool) (filename : String)
      (events timexes tlinks sentenceCount : Nat)
      (taskInfo : List (String × Nat))
  | graphSection (index : Nat) (legendLabels : List String)
  | noGraph
  | textSectionOpen (index : Nat)
  | sentenceDiv (num : Nat) (html : String)
  | textSectionClose
  | relationsOpen (linkCount : Nat)
  | relationItem (relation sourceId targetId : Option String)
      (sourceText targetText : String)
  | noRelations
  | relationsClose
  | exportOpen
  | exportPlainText (index : Nat)
  | exportViewXml (index : Nat)
  | exportDownloadXml (index : Nat)
  | tabContentClose
  | scriptData (graphs : List (List GNode × List GLink))
      (plainTexts rawXmls filenames : List String)
  | scriptBody
  | docClose
deriving DecidableEq, Repr

/-- `True` only for the CDN script tag, the only chunk whose template text
references an external network resource that the browser loads. -/
def externalRef : Chunk → Bool
  | .d3Cdn => true
  | _ => false

/-- The `data-tasks` attribute value of a tab button (source line 749):
the tasks string, or `none` when it is empty. -/
def tasksAttrOf (d : FileData) : String :=
  if d.tasks = "" then "none" else d.tasks

/-- The tab button emitted for the file at the given position
(source lines 747-750). -/
def mkTabButton (i : Nat) (d : FileData) : Chunk :=
  .tabButton i (i == 0) d.filename d.events d.timexes d.tlinks
    d.sentences.length (tasksAttrOf d)

/-- The tab buttons for all files, from `enumerate(all_data)` at the given
starting index. -/
def tabButtonChunks : Nat → List FileData → List Chunk
  | _, [] => []
  | i, d :: rest => mkTabButton i d :: tabButtonChunks (i + 1) rest

/-- The `task_parts` rows of a tab header (source lines 760-764): one
`(label, count)` pair per task in the sorted global task set. -/
def taskInfoOf (sortedGlobalTasks : List String) (d : FileData) :
    List (String × Nat) :=
  sortedGlobalTasks.map (fun t => (t, (dictLookup d.task_counts t).getD 0))

/-- The opening of a tab-content section with the file header
(source lines 766-777). -/
def mkTabOpen (sortedGlobalTasks : List String) (i : Nat) (d : FileData) :
    Chunk :=
  .tabContentOpen i (i == 0) d.filename d.events d.timexes d.tlinks
    d.sentences.length (taskInfoOf sortedGlobalTasks d)

/-- The numbered sentence divs (source lines 849-850,
`enumerate(data['sentences'], 1)`). -/
def sentenceChunks : Nat → List String → List Chunk
  | _, [] => []
  | j, s :: rest => .sentenceDiv j s :: sentenceChunks (j + 1) rest

/-- Python `text[:27] + '...' if len(text) > 30` (source lines 876-879). -/
def truncate30 (s : String) : String :=
  if s.length > 30 then s.take 27 ++ "..." else s

/-- The endpoint text shown for a relation item
(source lines 870-873): the node's `fullText` from the id-keyed lookup,
falling back to the id itself. -/
def endpointText (lookup : List (Option String × GNode))
    (endpointId : Option String) : String :=
  match dictLookup lookup endpointId with
  | some n => n.fullText
  | none => pyStr endpointId

/-- One relation item div (source lines 864-889). -/
def relationItemOf (lookup : List (Option String × GNode)) (l : GLink) :
    Chunk :=
  .relationItem l.relation l.sourceId l.targetId
    (truncate30 (endpointText lookup l.sourceId))
    (truncate30 (endpointText lookup l.targetId))

/-- The `node_lookup` dict comprehension (source line 862): nodes keyed by
id, later nodes overwriting earlier ones. -/
def nodeLookupOf (nodes : List GNode) : List (Option String × GNode) :=
  nodes.foldl (fun d n => dictInsert d n.id n) []

/-- The whole tab-content block emitted for one file
(source lines 757-912): header, graph section or placeholder, annotated
text, relations list, export buttons. -/
def tabContentChunks (sortedGlobalTasks : List String) (i : Nat)
    (d : FileData) : List Chunk :=
  [mkTabOpen sortedGlobalTasks i d] ++
  (if d.nodes.isEmpty then [.noGraph] else [.graphSection i relationTypes]) ++
  [.textSectionOpen i] ++
  sentenceChunks 1 d.sentences ++
  [.textSectionClose, .relationsOpen d.links.length] ++
  (if d.links.isEmpty then [.noRelations]
   else d.links.map (relationItemOf (nodeLookupOf d.nodes))) ++
  [.relationsClose, .exportOpen, .exportPlainText i, .exportViewXml i,
   .exportDownloadXml i, .tabContentClose]

/-- All tab-content blocks, from `enumerate(all_data)` at the given
starting index. -/
def tabContentsChunks (sortedGlobalTasks : List String) :
    Nat → List FileData → List Chunk
  | _, [] => []
  | i, d :: rest =>
      tabContentChunks sortedGlobalTasks i d ++
        tabContentsChunks sortedGlobalTasks (i + 1) rest

/-- The whole document emitted by `generate_multi_file_html`
(source lines 232-1432), as the ordered list of its template chunks.
`d3` is the content of `d3.v7.min.js` when that file exists next to the
script, and `none` when it does not (source lines 221-230); the embedded
script body is `d3_js if d3_js else ""`, and the CDN script tag is added
exactly when `d3_js` is falsy (source lines 636-639). -/
def documentChunks (files : List InputFile) (d3 : Option String) :
    List Chunk :=
  let ad := allData files
  let gt := sortStrings (globalTasks files)
  let totalEvents := (ad.map (·.events)).sum
  let totalTimexes := (ad.map (·.timexes)).sum
  let totalTlinks := (ad.map (·.tlinks)).sum
  [.docHead files.length,
   .d3Inline (if truthy d3 then textOrEmpty d3 else "")] ++
  (if truthy d3 then [] else [.d3Cdn]) ++
  [.bodyTop files.length, .credits,
   .statsBar files.length totalEvents totalTimexes totalTlinks,
   .controls, .tabsOpen] ++
  tabButtonChunks 0 ad ++
  [.tabsClose] ++
  tabContentsChunks gt 0 ad ++
  [.scriptData (ad.map (fun d => (d.nodes, d.links)))
      (ad.map (·.plain_text)) (ad.map (·.raw_xml)) (ad.map (·.filename)),
   .scriptBody, .docClose]

/-! ## The I/O trace of one run (reads, the output write, printed lines) -/
/-- One observable I/O action of the script.  `readFile` covers every
attempt to open an input path for reading (the raw read at source line 38,
the `ET.parse` calls at source lines 41 and 119, and the d3 library read at
source line 225); `writeFile` is the single `open(output_path, 'w')` write
at source lines 1434-1435; `logError` is the `except` print of
`parse_file` (source line 85); `logInfo` is every other `print`. -/
inductive Effect : Type where
  | readFile (path : String)
  | writeFile (path : String)
  | logError (msg : String)
  | logInfo (msg : String)
deriving DecidableEq, Repr

def Effect.isWrite : Effect → Bool
  | .writeFile _ => true
  | _ => false

def Effect.isRead : Effect → Bool
  | .readFile _ => true
  | _ => false

/-- The path of the bundled d3 library file, looked up next to the script
(source line 223). -/
def d3Path : String := "d3.v7.min.js"

/-- The error line `parse_file` prints on an exception (source line 85). -/
def parseErrorMsg (path err : String) : String :=
  "Error parsing " ++ path ++ ": " ++ err

/-- The I/O actions performed while processing one input file
(source lines 186-214): the progress line, the raw read, the `ET.parse`
read when the raw read succeeded, the error line when parsing raised, and
the extra `ET.parse` read of `get_plain_text`. -/
def fileTrace (i n : Nat) (f : InputFile) : List Effect :=
  .logInfo ("  [" ++ toString i ++ "/" ++ toString n ++ "] " ++ f.name) ::
  match f.content with
  | .unreadable err =>
      [.readFile f.path, .logError (parseErrorMsg f.path err),
       .readFile f.path]
  | .unparsable _ err =>
      [.readFile f.path, .readFile f.path,
       .logError (parseErrorMsg f.path err), .readFile f.path]
  | .parsed _ _ =>
      [.readFile f.path, .readFile f.path, .readFile f.path]

/-- The traces of all files in the processing loop, with the progress
counter starting at `i` (`enumerate(files, 1)` starts it at 1). -/
def filesTrace (n : Nat) : Nat → List InputFile → List Effect
  | _, [] => []
  | i, f :: rest => fileTrace i n f ++ filesTrace n (i + 1) rest

/-- The closing summary lines (source lines 1437-1441). -/
def summaryLogs (out : String) (nFiles totE totT totL : Nat) : List Effect :=
  [.logInfo ("Multi-file visualization exported to: " ++ out),
   .logInfo ("  Total files: " ++ toString nFiles),
   .logInfo ("  Total events: " ++ toString totE),
   .logInfo ("  Total time expressions: " ++ toString totT),
   .logInfo ("  Total temporal links: " ++ toString totL)]

/-- The I/O trace of one whole run of `generate_multi_file_html`
(source lines 177-1441): header line, per-file processing, the d3 library
read or the CDN warning, the single output write, and the summary lines. -/
def runTrace (files : List InputFile) (d3 : Option String) (out : String) :
    List Effect :=
  let ad := allData files
  .logInfo ("Processing " ++ toString files.length ++ " files...") ::
  filesTrace files.length 1 files ++
  (match d3 with
   | some s =>
       [.readFile d3Path,
        .logInfo ("  Embedding D3.js library (" ++ toString s.length ++
          " bytes) - fully offline version")]
   | none =>
       [.logInfo "  Warning: d3.v7.min.js not found, using CDN (requires internet)"]) ++
  [.writeFile out] ++
  summaryLogs out files.length ((ad.map (·.events)).sum)
    ((ad.map (·.timexes)).sum) ((ad.map (·.tlinks)).sum)

/-! ## Invariant of the node index built by `get_graph_data` -/
/-- Every index stored in `node_ids` points inside the node list, at a node
whose id is the stored key. -/
def NodeInv (ns : List GNode) (ids : List (Option String × Nat)) : Prop :=
  ∀ k i, dictLookup ids k = some i →
    ∃ h : i < ns.length, (ns.get ⟨i, h⟩).id = k

/-! ## Concrete sample inputs used by witnesses and counterexamples -/
/-- A sample `EVENT` element. -/
def sampleEvent : XElem :=
  .mk "EVENT" [("eid", "e1"), ("class", "OCCURRENCE")] (some "ran") []
    (some " home.")

/-- A sample sentence element containing the event. -/
def sampleSentence : XElem :=
  .mk "s" [] (some "He ") [sampleEvent] none

/-- A sample `TIMEX3` element. -/
def sampleTimex : XElem :=
  .mk "TIMEX3" [("tid", "t1"), ("type", "DATE"), ("value", "1998-01-01")]
    (some "today") [] none

/-- A sample `TLINK` element carrying task `A`. -/
def sampleTlink : XElem :=
  .mk "TLINK"
    [("lid", "l1"), ("relType", "BEFORE"), ("eventID", "e1"),
     ("relatedToTime", "t1"), ("task", "A")] none [] none

/-- A sample document root with one sentence, one timex and one tlink. -/
def sampleRoot : XElem :=
  .mk "TimeML" [] none [sampleSentence, sampleTimex, sampleTlink] none

/-- A sample input file that parses successfully. -/
def sampleFile : InputFile :=
  ⟨"a.tml", "data/a.tml", .parsed "<raw/>" sampleRoot⟩

/-- The parser state of the sample file. -/
def sampleParser : TempEvalParser :=
  parse_file "data/a.tml" (.parsed "<raw/>" sampleRoot)

/-- The link produced for the sample file's single tlink. -/
def sampleLink : GLink :=
  { source := 0, target := 1, relation := some "BEFORE"
    sourceId := some "e1", targetId := some "t1" }

/-- A sample document root like `sampleRoot` but with no `TLINK` (so no
task labels). -/
def sampleRootNoTask : XElem :=
  .mk "TimeML" [] none [sampleSentence, sampleTimex] none

/-- The sample file with its tlink removed. -/
def sampleFileNoTask : InputFile :=
  ⟨"a.tml", "data/a.tml", .parsed "<raw/>" sampleRootNoTask⟩

/-- A second, task-free input file. -/
def plainFile : InputFile :=
  ⟨"b.tml", "data/b.tml",
   .parsed "<b/>" (.mk "TimeML" [] none [.mk "s" [] (some "Quiet.") [] none] none)⟩

/-- An input file whose read raises. -/
def brokenFile : InputFile :=
  ⟨"c.tml", "data/c.tml", .unreadable "boom"⟩

/-- Whether reading/parsing this content raised an exception. -/
def FileContent.isError : FileContent → Bool
  | .parsed _ _ => false
  | _ => true

/-! ## Structural lemmas about the emitted chunk lists -/
/-- Whether a chunk is a tab button. -/
def Chunk.isTabButton : Chunk → Bool
  | .tabButton _ _ _ _ _ _ _ _ => true
  | _ => false

/-- Whether a chunk opens a tab-content section. -/
def Chunk.isTabOpen : Chunk → Bool
  | .tabContentOpen _ _ _ _ _ _ _ _ => true
  | _ => false

/-- The rendered sentence html carried by a sentence chunk. -/
def sentenceHtml : Chunk → Option String
  | .sentenceDiv _ s => some s
  | _ => none

/-- The tab-content opening chunks, one per file, mirroring the filtering
of `tabContentsChunks` down to its `tabContentOpen` chunks. -/
def tabOpenChunks (gt : List String) : Nat → List FileData → List Chunk
  | _, [] => []
  | i, d :: rest => mkTabOpen gt i d :: tabOpenChunks gt (i + 1) rest

/-! ## Theorems -/

@[simp] theorem dictLookup_nil {K V : Type} [DecidableEq K] (k : K) :
    dictLookup ([] : List (K × V)) k = none := rfl

@[simp] theorem dictLookup_cons {K V : Type} [DecidableEq K] (p : K × V)
    (rest : List (K × V)) (k : K) :
    dictLookup (p :: rest) k = if p.1 = k then some p.2 else dictLookup rest k := rfl

theorem dictLookup_append {K V : Type} [DecidableEq K] (d1 d2 : List (K × V)) (k : K) :
    dictLookup (d1 ++ d2) k =
      match dictLookup d1 k with
      | some v => some v
      | none => dictLookup d2 k := by
  induction d1 with
  | nil => simp
  | cons p rest ih =>
      by_cases h : p.1 = k <;> simp [h, ih]

theorem dictLookup_overwrite {K V : Type} [DecidableEq K]
    (d : List (K × V)) (k : K) (v : V)
    (h : d.any (fun p => p.1 = k) = true) :
    dictLookup (d.map (fun p => if p.1 = k then (k, v) else p)) k = some v := by
  induction d with
  | nil => simp at h
  | cons p rest ih =>
      by_cases hp : p.1 = k
      · simp [hp]
      · have hrest : rest.any (fun p => p.1 = k) = true := by
          simp only [List.any_cons, Bool.or_eq_true] at h
          rcases h with h1 | h2
          · exact absurd (of_decide_eq_true h1) hp
          · exact h2
        simpa [hp] using ih hrest

theorem dictLookup_overwrite_ne {K V : Type} [DecidableEq K]
    (d : List (K × V)) (k k' : K) (v : V) (hne : k' ≠ k) :
    dictLookup (d.map (fun p => if p.1 = k then (k, v) else p)) k' =
      dictLookup d k' := by
  induction d with
  | nil => rfl
  | cons p rest ih =>
      by_cases hp : p.1 = k
      · have hk : ¬ (k = k') := fun hk => hne hk.symm
        have hp' : ¬ (p.1 = k') := by rw [hp]; exact hk
        simp [hp, hk, hp', ih]
      · simp only [List.map_cons, dictLookup_cons, if_neg hp]
        simp [ih]

theorem dictLookup_dictInsert_self {K V : Type} [DecidableEq K]
    (d : List (K × V)) (k : K) (v : V) :
    dictLookup (dictInsert d k v) k = some v := by
  unfold dictInsert
  by_cases h : d.any (fun p => p.1 = k) = true
  · rw [if_pos h]
    exact dictLookup_overwrite d k v h
  · rw [if_neg h]
    rw [dictLookup_append]
    have hmiss : dictLookup d k = none := by
      induction d with
      | nil => rfl
      | cons p rest ih =>
          simp only [List.any_cons, Bool.or_eq_true, not_or] at h
          have hp : ¬ p.1 = k := fun hk => h.1 (decide_eq_true hk)
          have := ih (by simpa using h.2)
          simp [hp, this]
    simp [hmiss]

theorem dictLookup_dictInsert_ne {K V : Type} [DecidableEq K]
    (d : List (K × V)) (k k' : K) (v : V) (hne : k' ≠ k) :
    dictLookup (dictInsert d k v) k' = dictLookup d k' := by
  unfold dictInsert
  by_cases h : d.any (fun p => p.1 = k) = true
  · rw [if_pos h]
    exact dictLookup_overwrite_ne d k k' v hne
  · rw [if_neg h]
    rw [dictLookup_append]
    have hone : dictLookup [(k, v)] k' = none := by
      have hk : ¬ (k = k') := fun hk => hne hk.symm
      simp [hk]
    cases hd : dictLookup d k' <;> simp [hone, hd]

theorem dictKeys_dictInsert {K V : Type} [DecidableEq K]
    (d : List (K × V)) (k : K) (v : V) :
    dictKeys (dictInsert d k v) =
      if d.any (fun p => p.1 = k) then dictKeys d else dictKeys d ++ [k] := by
  unfold dictInsert dictKeys
  by_cases h : d.any (fun p => p.1 = k)
  · simp only [h, if_true, List.map_map]
    refine List.map_congr_left ?_
    intro p _
    by_cases hp : p.1 = k <;> simp [hp]
  · simp [h]

theorem mem_dictKeys_dictInsert {K V : Type} [DecidableEq K]
    (d : List (K × V)) (k x : K) (v : V) :
    x ∈ dictKeys (dictInsert d k v) ↔ x ∈ dictKeys d ∨ x = k := by
  rw [dictKeys_dictInsert]
  by_cases h : d.any (fun p => p.1 = k)
  · simp only [h, if_true]
    constructor
    · exact fun hx => Or.inl hx
    · rintro (hx | rfl)
      · exact hx
      · rcases List.any_eq_true.mp h with ⟨p, hp, hpk⟩
        have : p.1 = x := of_decide_eq_true hpk
        exact this ▸ List.mem_map_of_mem (·.1) hp
  · simp [h]

theorem nodup_dictKeys_dictInsert {K V : Type} [DecidableEq K]
    (d : List (K × V)) (k : K) (v : V) (hd : (dictKeys d).Nodup) :
    (dictKeys (dictInsert d k v)).Nodup := by
  rw [dictKeys_dictInsert]
  by_cases h : d.any (fun p => p.1 = k)
  · simpa [h] using hd
  · have hk : k ∉ dictKeys d := by
      intro hmem
      rcases List.mem_map.mp hmem with ⟨p, hp, hpk⟩
      exact h (List.any_eq_true.mpr ⟨p, hp, decide_eq_true hpk⟩)
    rw [if_neg h]
    simpa [List.nodup_append] using ⟨hd, hk⟩

@[simp] theorem dictKeys_length {K V : Type} (d : List (K × V)) :
    (dictKeys d).length = d.length := by
  simp [dictKeys]

/-! ## Generic lemmas about folds and dictionaries -/
theorem foldl_preserve {σ β : Type} (P : σ → Prop) (f : σ → β → σ)
    (hstep : ∀ s b, P s → P (f s b)) :
    ∀ (l : List β) (s : σ), P s → P (l.foldl f s) := by
  intro l
  induction l with
  | nil => intro s hs; exact hs
  | cons b rest ih => intro s hs; exact ih (f s b) (hstep s b hs)

theorem find?_append {α : Type} (p : α → Bool) (l1 l2 : List α) :
    (l1 ++ l2).find? p =
      match l1.find? p with
      | some a => some a
      | none => l2.find? p := by
  induction l1 with
  | nil => simp
  | cons a rest ih =>
      by_cases h : p a
      · simp [List.find?_cons_of_pos _ h]
      · simp only [List.cons_append, List.find?_cons_of_neg _ h, ih]

theorem dictLookup_foldl_insert {V : Type} (key : XElem → Option String)
    (val : XElem → V) (es : List XElem)
    (d : List (Option String × V)) (k : Option String) :
    dictLookup (es.foldl (fun d e => dictInsert d (key e) (val e)) d) k =
      match es.reverse.find? (fun e => key e == k) with
      | some e => some (val e)
      | none => dictLookup d k := by
  induction es generalizing d with
  | nil => simp
  | cons e rest ih =>
      simp only [List.foldl_cons, List.reverse_cons]
      rw [ih, find?_append]
      cases hfind : rest.reverse.find? (fun e => key e == k) with
      | some e' => rfl
      | none =>
          by_cases hke : key e = k
          · subst hke
            simp [List.find?_cons_of_pos, dictLookup_dictInsert_self]
          · have hb : ((fun e => key e == k) e) = false := by
              simpa using hke
            rw [List.find?_cons_of_neg _ (by simp [hb]),
              dictLookup_dictInsert_ne d (key e) k (val e)
                (fun h => hke h.symm)]
            rfl

theorem mem_dictKeys_foldl_insert {V : Type} (key : XElem → Option String)
    (val : XElem → V) (es : List XElem)
    (d : List (Option String × V)) (x : Option String) :
    x ∈ dictKeys (es.foldl (fun d e => dictInsert d (key e) (val e)) d) ↔
      x ∈ dictKeys d ∨ x ∈ es.map key := by
  induction es generalizing d with
  | nil => simp
  | cons e rest ih =>
      simp only [List.foldl_cons, List.map_cons, List.mem_cons]
      rw [ih, mem_dictKeys_dictInsert]
      tauto

theorem nodup_dictKeys_foldl_insert {V : Type} (key : XElem → Option String)
    (val : XElem → V) (es : List XElem) (d : List (Option String × V))
    (hd : (dictKeys d).Nodup) :
    (dictKeys (es.foldl (fun d e => dictInsert d (key e) (val e)) d)).Nodup :=
  foldl_preserve (fun d => (dictKeys d).Nodup) _
    (fun d e h => nodup_dictKeys_dictInsert d (key e) (val e) h) es d hd

theorem length_foldl_insert_nil {V : Type} (key : XElem → Option String)
    (val : XElem → V) (es : List XElem) :
    (es.foldl (fun d e => dictInsert d (key e) (val e)) []).length =
      (es.map key).dedup.length := by
  set D := es.foldl (fun d e => dictInsert d (key e) (val e)) [] with hD
  have h1 : (dictKeys D).Nodup :=
    nodup_dictKeys_foldl_insert key val es [] (by simp [dictKeys])
  have h2 : ((es.map key).dedup).Nodup := List.nodup_dedup _
  have hmem : ∀ x, x ∈ dictKeys D ↔ x ∈ (es.map key).dedup := by
    intro x
    rw [List.mem_dedup, hD, mem_dictKeys_foldl_insert]
    simp [dictKeys]
  calc D.length = (dictKeys D).length := (dictKeys_length D).symm
    _ = (es.map key).dedup.length :=
        ((List.perm_ext_iff_of_nodup h1 h2).mpr hmem).length_eq

theorem nodeInv_nil : NodeInv [] [] := by
  intro k i h
  simp at h

theorem nodeInv_pushNode (ns : List GNode) (ids : List (Option String × Nat))
    (k : Option String) (n : GNode) (hid : n.id = k) (hinv : NodeInv ns ids) :
    NodeInv (pushNode (ns, ids) k n).1 (pushNode (ns, ids) k n).2 := by
  intro k' i' hlook
  simp only [pushNode] at hlook ⊢
  by_cases hk : k' = k
  · subst hk
    rw [dictLookup_dictInsert_self] at hlook
    have hi : i' = ns.length := by
      injection hlook with h
      exact h.symm
    subst hi
    refine ⟨by simp, ?_⟩
    simp only [List.get_eq_getElem]
    rw [List.getElem_concat_length ns n ns.length rfl (by simp)]
    exact hid
  · rw [dictLookup_dictInsert_ne _ _ _ _ hk] at hlook
    rcases hinv k' i' hlook with ⟨h, hget⟩
    refine ⟨by simp; omega, ?_⟩
    simp only [List.get_eq_getElem] at hget ⊢
    rw [List.getElem_append_left h]
    exact hget

theorem nodeInv_foldl_push {α : Type} (mk : Option String × α → GNode)
    (hmk : ∀ kv, (mk kv).id = kv.1) (l : List (Option String × α))
    (acc : List GNode × List (Option String × Nat))
    (hacc : NodeInv acc.1 acc.2) :
    NodeInv (l.foldl (fun acc kv => pushNode acc kv.1 (mk kv)) acc).1
      (l.foldl (fun acc kv => pushNode acc kv.1 (mk kv)) acc).2 := by
  refine foldl_preserve (fun s => NodeInv s.1 s.2) _ ?_ l acc hacc
  intro s kv hs
  have := nodeInv_pushNode s.1 s.2 kv.1 (mk kv) (hmk kv) hs
  simpa using this

theorem nodeInv_buildNodes (p : TempEvalParser) :
    NodeInv (buildNodes p).1 (buildNodes p).2 := by
  unfold buildNodes
  exact nodeInv_foldl_push
    (fun kv => GNode.timex kv.1 (kv.2.text.take 15) kv.2.text kv.2.value)
    (fun kv => rfl) p.timexes _
    (nodeInv_foldl_push
      (fun kv => GNode.event kv.1 (kv.2.text.take 15) kv.2.text kv.2.cls)
      (fun kv => rfl) p.events ([], []) nodeInv_nil)

theorem length_foldl_pushEvents (es : List (Option String × EventRec))
    (acc : List GNode × List (Option String × Nat)) :
    (es.foldl (fun acc kv =>
        pushNode acc kv.1
          (GNode.event kv.1 (kv.2.text.take 15) kv.2.text kv.2.cls)) acc).1.length =
      acc.1.length + es.length := by
  induction es generalizing acc with
  | nil => simp
  | cons kv rest ih =>
      simp only [List.foldl_cons]
      rw [ih]
      simp only [pushNode, List.length_append, List.length_cons, List.length_nil]
      omega

theorem length_foldl_pushTimexes (ts : List (Option String × TimexRec))
    (acc : List GNode × List (Option String × Nat)) :
    (ts.foldl (fun acc kv =>
        pushNode acc kv.1
          (GNode.timex kv.1 (kv.2.text.take 15) kv.2.text kv.2.value)) acc).1.length =
      acc.1.length + ts.length := by
  induction ts generalizing acc with
  | nil => simp
  | cons kv rest ih =>
      simp only [List.foldl_cons]
      rw [ih]
      simp only [pushNode, List.length_append, List.length_cons, List.length_nil]
      omega

theorem length_buildNodes (p : TempEvalParser) :
    (buildNodes p).1.length = p.events.length + p.timexes.length := by
  simp only [buildNodes]
  rw [length_foldl_pushTimexes, length_foldl_pushEvents]
  simp

theorem get_graph_data_fst (p : TempEvalParser) :
    (get_graph_data p).1 = (buildNodes p).1 := rfl

theorem get_graph_data_snd (p : TempEvalParser) :
    (get_graph_data p).2 = p.tlinks.filterMap (mkLink (buildNodes p).2) := rfl

/-- C9: for every parser state, every link returned by `get_graph_data` has
`source` and `target` that are valid indices into the returned node list,
each referring to a node whose id equals the link's `sourceId` /
`targetId`; and any tlink whose resolved endpoints are falsy or absent from
the node index contributes no link. -/
theorem get_graph_data_links_wellformed (p : TempEvalParser) :
    (∀ l ∈ (get_graph_data p).2,
      (∃ hs : l.source < (get_graph_data p).1.length,
        ((get_graph_data p).1.get ⟨l.source, hs⟩).id = l.sourceId) ∧
      (∃ ht : l.target < (get_graph_data p).1.length,
        ((get_graph_data p).1.get ⟨l.target, ht⟩).id = l.targetId)) ∧
    (∀ t ∈ p.tlinks,
      (truthy (pyOr t.eventID t.timeID) = false ∨
       truthy (pyOr t.relatedToEvent t.relatedToTime) = false ∨
       dictLookup (buildNodes p).2 (pyOr t.eventID t.timeID) = none ∨
       dictLookup (buildNodes p).2 (pyOr t.relatedToEvent t.relatedToTime) =
         none) →
      mkLink (buildNodes p).2 t = none) := by
  have hinv := nodeInv_buildNodes p
  constructor
  · intro l hl
    rw [get_graph_data_snd] at hl
    rw [get_graph_data_fst]
    obtain ⟨t, _ht, hmk⟩ := List.mem_filterMap.mp hl
    simp only [mkLink] at hmk
    by_cases hcond :
        (truthy (pyOr t.eventID t.timeID) &&
          truthy (pyOr t.relatedToEvent t.relatedToTime)) = true
    · rw [if_pos hcond] at hmk
      cases hsi : dictLookup (buildNodes p).2 (pyOr t.eventID t.timeID) with
      | none => rw [hsi] at hmk; simp at hmk
      | some si =>
          cases hti : dictLookup (buildNodes p).2
              (pyOr t.relatedToEvent t.relatedToTime) with
          | none => rw [hsi, hti] at hmk; simp at hmk
          | some ti =>
              rw [hsi, hti] at hmk
              simp only [Option.some.injEq] at hmk
              subst hmk
              exact ⟨hinv _ si hsi, hinv _ ti hti⟩
    · rw [if_neg hcond] at hmk
      simp at hmk
  · intro t _ht hbad
    rcases hbad with hb | hb | hb | hb
    · simp [mkLink, hb]
    · simp [mkLink, hb]
    · cases h2 : dictLookup (buildNodes p).2
          (pyOr t.relatedToEvent t.relatedToTime) <;>
        simp [mkLink, hb, h2]
    · cases h1 : dictLookup (buildNodes p).2 (pyOr t.eventID t.timeID) <;>
        simp [mkLink, hb, h1]

/-- Concrete instantiation of the C9 theorem at the sample file's single
link. -/
theorem get_graph_data_links_wellformed_witness :
    (∃ hs : sampleLink.source < (get_graph_data sampleParser).1.length,
      ((get_graph_data sampleParser).1.get
        ⟨sampleLink.source, hs⟩).id = sampleLink.sourceId) ∧
    (∃ ht : sampleLink.target < (get_graph_data sampleParser).1.length,
      ((get_graph_data sampleParser).1.get
        ⟨sampleLink.target, ht⟩).id = sampleLink.targetId) :=
  (get_graph_data_links_wellformed sampleParser).1 sampleLink (by decide)

theorem parse_file_parsed_events (fp raw : String) (root : XElem) :
    (parse_file fp (.parsed raw root)).events = parseEvents root := rfl

theorem parse_file_parsed_timexes (fp raw : String) (root : XElem) :
    (parse_file fp (.parsed raw root)).timexes = parseTimexes root := rfl

theorem parse_file_parsed_tlinks (fp raw : String) (root : XElem) :
    (parse_file fp (.parsed raw root)).tlinks =
      (findall root "TLINK").map mkTLinkRec := rfl

theorem match_option_map {α β : Type} (o : Option α) (f : α → β) :
    (match o with | some a => some (f a) | none => none) = o.map f := by
  cases o <;> rfl

theorem parseEvents_lookup (root : XElem) (k : Option String) :
    dictLookup (parseEvents root) k =
      ((findall root "EVENT").reverse.find?
        (fun e => e.xget "eid" == k)).map mkEventRec := by
  have h : dictLookup (parseEvents root) k =
      match (findall root "EVENT").reverse.find?
          (fun e => e.xget "eid" == k) with
      | some e => some (mkEventRec e)
      | none => none :=
    dictLookup_foldl_insert (fun e => e.xget "eid") mkEventRec
      (findall root "EVENT") [] k
  rw [h]
  cases List.find? (fun e => e.xget "eid" == k) (findall root "EVENT").reverse <;>
    rfl

theorem parseTimexes_lookup (root : XElem) (k : Option String) :
    dictLookup (parseTimexes root) k =
      ((findall root "TIMEX3").reverse.find?
        (fun e => e.xget "tid" == k)).map mkTimexRec := by
  have h : dictLookup (parseTimexes root) k =
      match (findall root "TIMEX3").reverse.find?
          (fun e => e.xget "tid" == k) with
      | some e => some (mkTimexRec e)
      | none => none :=
    dictLookup_foldl_insert (fun e => e.xget "tid") mkTimexRec
      (findall root "TIMEX3") [] k
  rw [h]
  cases List.find? (fun e => e.xget "tid" == k) (findall root "TIMEX3").reverse <;>
    rfl

/-- C6: for every successfully parsed input file, the parser extracts
exactly the three flat record types: events keyed by `eid` with the
listed fields (`mkEventRec`), time expressions keyed by `tid`
(`mkTimexRec`), and the flat tlink list (`mkTLinkRec`); the key sets are
exactly the `eid`s / `tid`s of the `EVENT` / `TIMEX3` descendants, and
the value at a key comes from the last element with that key. -/
theorem parse_file_extracts_three_record_types (fp raw : String)
    (root : XElem) :
    (∀ k, dictLookup (parse_file fp (.parsed raw root)).events k =
      ((findall root "EVENT").reverse.find?
        (fun e => e.xget "eid" == k)).map mkEventRec) ∧
    (∀ k, dictLookup (parse_file fp (.parsed raw root)).timexes k =
      ((findall root "TIMEX3").reverse.find?
        (fun e => e.xget "tid" == k)).map mkTimexRec) ∧
    (parse_file fp (.parsed raw root)).tlinks =
      (findall root "TLINK").map mkTLinkRec ∧
    (dictKeys (parse_file fp (.parsed raw root)).events).Nodup ∧
    (∀ x, x ∈ dictKeys (parse_file fp (.parsed raw root)).events ↔
      x ∈ (findall root "EVENT").map (fun e => e.xget "eid")) ∧
    (dictKeys (parse_file fp (.parsed raw root)).timexes).Nodup ∧
    (∀ x, x ∈ dictKeys (parse_file fp (.parsed raw root)).timexes ↔
      x ∈ (findall root "TIMEX3").map (fun e => e.xget "tid")) := by
  refine ⟨?_, ?_, rfl, ?_, ?_, ?_, ?_⟩
  · intro k
    rw [parse_file_parsed_events]
    exact parseEvents_lookup root k
  · intro k
    rw [parse_file_parsed_timexes]
    exact parseTimexes_lookup root k
  · rw [parse_file_parsed_events]
    exact nodup_dictKeys_foldl_insert (fun e => e.xget "eid") mkEventRec
      (findall root "EVENT") [] (by simp [dictKeys])
  · intro x
    rw [parse_file_parsed_events]
    have := mem_dictKeys_foldl_insert (fun e => e.xget "eid") mkEventRec
      (findall root "EVENT") [] x
    simpa [dictKeys] using this
  · rw [parse_file_parsed_timexes]
    exact nodup_dictKeys_foldl_insert (fun e => e.xget "tid") mkTimexRec
      (findall root "TIMEX3") [] (by simp [dictKeys])
  · intro x
    rw [parse_file_parsed_timexes]
    have := mem_dictKeys_foldl_insert (fun e => e.xget "tid") mkTimexRec
      (findall root "TIMEX3") [] x
    simpa [dictKeys] using this

/-- C10: the per-file event and timex counts count distinct ids: duplicate
`eid`s / `tid`s collapse into one record whose fields come from the last
such element, and the reported counts are the numbers of distinct ids. -/
theorem counts_are_distinct_ids (name path raw : String) (root : XElem) :
    (dataOf ⟨name, path, .parsed raw root⟩).events =
      ((findall root "EVENT").map (fun e => e.xget "eid")).dedup.length ∧
    (dataOf ⟨name, path, .parsed raw root⟩).timexes =
      ((findall root "TIMEX3").map (fun e => e.xget "tid")).dedup.length ∧
    (∀ k, dictLookup (parse_file path (.parsed raw root)).events k =
      ((findall root "EVENT").reverse.find?
        (fun e => e.xget "eid" == k)).map mkEventRec) ∧
    (∀ k, dictLookup (parse_file path (.parsed raw root)).timexes k =
      ((findall root "TIMEX3").reverse.find?
        (fun e => e.xget "tid" == k)).map mkTimexRec) := by
  refine ⟨?_, ?_, ?_, ?_⟩
  · show (parse_file path (.parsed raw root)).events.length = _
    rw [parse_file_parsed_events]
    exact length_foldl_insert_nil (fun e => e.xget "eid") mkEventRec
      (findall root "EVENT")
  · show (parse_file path (.parsed raw root)).timexes.length = _
    rw [parse_file_parsed_timexes]
    exact length_foldl_insert_nil (fun e => e.xget "tid") mkTimexRec
      (findall root "TIMEX3")
  · intro k
    rw [parse_file_parsed_events]
    exact parseEvents_lookup root k
  · intro k
    rw [parse_file_parsed_timexes]
    exact parseTimexes_lookup root k

/-- C2: when parsing an input file raises, an error line is printed and the
file contributes no parsed content (empty records, counts of zero, no
sentences, no graph), while every other file of the list is processed
exactly as it would be on its own. -/
theorem parse_error_logged_and_skipped (f : InputFile) (i n : Nat)
    (pre post : List InputFile) (herr : f.content.isError = true) :
    (parse_file f.path f.content).events = [] ∧
    (parse_file f.path f.content).timexes = [] ∧
    (parse_file f.path f.content).tlinks = [] ∧
    (parse_file f.path f.content).sentences = [] ∧
    (∃ msg, Effect.logError msg ∈ fileTrace i n f) ∧
    (dataOf f).events = 0 ∧
    (dataOf f).timexes = 0 ∧
    (dataOf f).tlinks = 0 ∧
    (dataOf f).sentences = [] ∧
    (dataOf f).nodes = [] ∧
    (dataOf f).links = [] ∧
    allData (pre ++ f :: post) = allData pre ++ dataOf f :: allData post := by
  obtain ⟨nm, pth, ct⟩ := f
  cases ct with
  | parsed raw root => simp [FileContent.isError] at herr
  | unreadable err =>
      exact ⟨rfl, rfl, rfl, rfl,
        ⟨parseErrorMsg pth err, by simp [fileTrace]⟩,
        rfl, rfl, rfl, rfl, rfl, rfl, by simp [allData]⟩
  | unparsable raw err =>
      exact ⟨rfl, rfl, rfl, rfl,
        ⟨parseErrorMsg pth err, by simp [fileTrace]⟩,
        rfl, rfl, rfl, rfl, rfl, rfl, by simp [allData]⟩

/-- Concrete instantiation of the C2 theorem at a file whose read raises,
surrounded by two healthy files. -/
theorem parse_error_logged_and_skipped_witness :
    (parse_file brokenFile.path brokenFile.content).events = [] ∧
    (parse_file brokenFile.path brokenFile.content).timexes = [] ∧
    (parse_file brokenFile.path brokenFile.content).tlinks = [] ∧
    (parse_file brokenFile.path brokenFile.content).sentences = [] ∧
    (∃ msg, Effect.logError msg ∈ fileTrace 2 3 brokenFile) ∧
    (dataOf brokenFile).events = 0 ∧
    (dataOf brokenFile).timexes = 0 ∧
    (dataOf brokenFile).tlinks = 0 ∧
    (dataOf brokenFile).sentences = [] ∧
    (dataOf brokenFile).nodes = [] ∧
    (dataOf brokenFile).links = [] ∧
    allData ([sampleFile] ++ brokenFile :: [plainFile]) =
      allData [sampleFile] ++ dataOf brokenFile :: allData [plainFile] :=
  parse_error_logged_and_skipped brokenFile 2 3 [sampleFile] [plainFile]
    (by decide)

theorem tabButtonChunks_length (ds : List FileData) :
    ∀ i, (tabButtonChunks i ds).length = ds.length := by
  induction ds with
  | nil => intro i; rfl
  | cons d rest ih => intro i; simp [tabButtonChunks, ih]

theorem tabOpenChunks_length (gt : List String) (ds : List FileData) :
    ∀ i, (tabOpenChunks gt i ds).length = ds.length := by
  induction ds with
  | nil => intro i; rfl
  | cons d rest ih => intro i; simp [tabOpenChunks, ih]

theorem tabButtonChunks_getElem? (ds : List FileData) :
    ∀ i j, (tabButtonChunks i ds)[j]? =
      (ds[j]?).map (fun d => mkTabButton (i + j) d) := by
  induction ds with
  | nil => intro i j; simp [tabButtonChunks]
  | cons d rest ih =>
      intro i j
      cases j with
      | zero => simp [tabButtonChunks]
      | succ j =>
          simp only [tabButtonChunks, List.getElem?_cons_succ, ih (i + 1) j]
          have harith : i + 1 + j = i + (j + 1) := by omega
          rw [harith]

theorem tabOpenChunks_getElem? (gt : List String) (ds : List FileData) :
    ∀ i j, (tabOpenChunks gt i ds)[j]? =
      (ds[j]?).map (fun d => mkTabOpen gt (i + j) d) := by
  induction ds with
  | nil => intro i j; simp [tabOpenChunks]
  | cons d rest ih =>
      intro i j
      cases j with
      | zero => simp [tabOpenChunks]
      | succ j =>
          simp only [tabOpenChunks, List.getElem?_cons_succ, ih (i + 1) j]
          have harith : i + 1 + j = i + (j + 1) := by omega
          rw [harith]

theorem filter_isTabButton_tabButtonChunks (ds : List FileData) :
    ∀ i, (tabButtonChunks i ds).filter Chunk.isTabButton =
      tabButtonChunks i ds := by
  induction ds with
  | nil => intro i; rfl
  | cons d rest ih =>
      intro i
      simp [tabButtonChunks, List.filter_cons, mkTabButton,
        Chunk.isTabButton, ih]

theorem filter_isTabOpen_tabButtonChunks (ds : List FileData) :
    ∀ i, (tabButtonChunks i ds).filter Chunk.isTabOpen = [] := by
  induction ds with
  | nil => intro i; rfl
  | cons d rest ih =>
      intro i
      simp [tabButtonChunks, List.filter_cons, mkTabButton,
        Chunk.isTabOpen, ih]

theorem filter_isTabButton_sentenceChunks (ss : List String) :
    ∀ j, (sentenceChunks j ss).filter Chunk.isTabButton = [] := by
  induction ss with
  | nil => intro j; rfl
  | cons s rest ih =>
      intro j
      simp [sentenceChunks, List.filter_cons, Chunk.isTabButton, ih]

theorem filter_isTabOpen_sentenceChunks (ss : List String) :
    ∀ j, (sentenceChunks j ss).filter Chunk.isTabOpen = [] := by
  induction ss with
  | nil => intro j; rfl
  | cons s rest ih =>
      intro j
      simp [sentenceChunks, List.filter_cons, Chunk.isTabOpen, ih]

theorem filter_isTabButton_map_relationItem
    (lk : List (Option String × GNode)) (ls : List GLink) :
    (ls.map (relationItemOf lk)).filter Chunk.isTabButton = [] := by
  induction ls with
  | nil => rfl
  | cons l rest ih =>
      simp [List.filter_cons, relationItemOf, Chunk.isTabButton, ih]

theorem filter_isTabOpen_map_relationItem
    (lk : List (Option String × GNode)) (ls : List GLink) :
    (ls.map (relationItemOf lk)).filter Chunk.isTabOpen = [] := by
  induction ls with
  | nil => rfl
  | cons l rest ih =>
      simp [List.filter_cons, relationItemOf, Chunk.isTabOpen, ih]

theorem filter_isTabButton_tabContentChunks (gt : List String) (i : Nat)
    (d : FileData) :
    (tabContentChunks gt i d).filter Chunk.isTabButton = [] := by
  by_cases hn : d.nodes.isEmpty <;> by_cases hl : d.links.isEmpty <;>
    simp [tabContentChunks, hn, hl, List.filter_append, List.filter_cons,
      mkTabOpen, Chunk.isTabButton, filter_isTabButton_sentenceChunks,
      filter_isTabButton_map_relationItem]

theorem filter_isTabOpen_tabContentChunks (gt : List String) (i : Nat)
    (d : FileData) :
    (tabContentChunks gt i d).filter Chunk.isTabOpen = [mkTabOpen gt i d] := by
  by_cases hn : d.nodes.isEmpty <;> by_cases hl : d.links.isEmpty <;>
    simp [tabContentChunks, hn, hl, List.filter_append, List.filter_cons,
      mkTabOpen, Chunk.isTabOpen, filter_isTabOpen_sentenceChunks,
      filter_isTabOpen_map_relationItem]

theorem filter_isTabButton_tabContentsChunks (ds : List FileData)
    (gt : List String) :
    ∀ i, (tabContentsChunks gt i ds).filter Chunk.isTabButton = [] := by
  induction ds with
  | nil => intro i; rfl
  | cons d rest ih =>
      intro i
      simp [tabContentsChunks, List.filter_append,
        filter_isTabButton_tabContentChunks, ih]

theorem filter_isTabOpen_tabContentsChunks (ds : List FileData)
    (gt : List String) :
    ∀ i, (tabContentsChunks gt i ds).filter Chunk.isTabOpen =
      tabOpenChunks gt i ds := by
  induction ds with
  | nil => intro i; rfl
  | cons d rest ih =>
      intro i
      simp [tabContentsChunks, tabOpenChunks, List.filter_append,
        filter_isTabOpen_tabContentChunks, ih]

theorem filter_isTabButton_documentChunks (files : List InputFile)
    (d3 : Option String) :
    (documentChunks files d3).filter Chunk.isTabButton =
      tabButtonChunks 0 (allData files) := by
  by_cases ht : truthy d3 <;>
    simp [documentChunks, ht, List.filter_append, List.filter_cons,
      Chunk.isTabButton, filter_isTabButton_tabButtonChunks,
      filter_isTabButton_tabContentsChunks]

theorem filter_isTabOpen_documentChunks (files : List InputFile)
    (d3 : Option String) :
    (documentChunks files d3).filter Chunk.isTabOpen =
      tabOpenChunks (sortStrings (globalTasks files)) 0 (allData files) := by
  by_cases ht : truthy d3 <;>
    simp [documentChunks, ht, List.filter_append, List.filter_cons,
      Chunk.isTabOpen, filter_isTabOpen_tabButtonChunks,
      filter_isTabOpen_tabContentsChunks]

theorem allData_length (files : List InputFile) :
    (allData files).length = files.length := by
  simp [allData]

theorem allData_getElem? (files : List InputFile) (j : Nat) :
    (allData files)[j]? = (files[j]?).map dataOf :=
  List.getElem?_map dataOf files j

/-- C1: for every non-empty input list the document contains exactly one
tab button and one tab-content section per input file, in input order,
with the first file's button and section marked active (`j == 0`). -/
theorem one_tab_per_file (files : List InputFile) (d3 : Option String)
    (hne : files ≠ []) :
    ((documentChunks files d3).filter Chunk.isTabButton).length =
      files.length ∧
    ((documentChunks files d3).filter Chunk.isTabOpen).length =
      files.length ∧
    (∀ j f, files[j]? = some f →
      ((documentChunks files d3).filter Chunk.isTabButton)[j]? =
        some (Chunk.tabButton j (j == 0) (dataOf f).filename
          (dataOf f).events (dataOf f).timexes (dataOf f).tlinks
          (dataOf f).sentences.length (tasksAttrOf (dataOf f)))) ∧
    (∀ j f, files[j]? = some f →
      ((documentChunks files d3).filter Chunk.isTabOpen)[j]? =
        some (Chunk.tabContentOpen j (j == 0) (dataOf f).filename
          (dataOf f).events (dataOf f).timexes (dataOf f).tlinks
          (dataOf f).sentences.length
          (taskInfoOf (sortStrings (globalTasks files)) (dataOf f)))) := by
  have _hne := hne
  refine ⟨?_, ?_, ?_, ?_⟩
  · rw [filter_isTabButton_documentChunks, tabButtonChunks_length,
      allData_length]
  · rw [filter_isTabOpen_documentChunks, tabOpenChunks_length,
      allData_length]
  · intro j f hf
    rw [filter_isTabButton_documentChunks, tabButtonChunks_getElem?,
      allData_getElem?, hf]
    simp [mkTabButton]
  · intro j f hf
    rw [filter_isTabOpen_documentChunks, tabOpenChunks_getElem?,
      allData_getElem?, hf]
    simp [mkTabOpen]

/-- Concrete instantiation of the C1 theorem on a two-file run: counts and
the first two tabs, the first active and the second not. -/
theorem one_tab_per_file_witness :
    ((documentChunks [sampleFile, plainFile] none).filter
      Chunk.isTabButton).length = 2 ∧
    ((documentChunks [sampleFile, plainFile] none).filter
        Chunk.isTabButton)[0]? =
      some (Chunk.tabButton 0 (0 == 0) (dataOf sampleFile).filename
        (dataOf sampleFile).events (dataOf sampleFile).timexes
        (dataOf sampleFile).tlinks (dataOf sampleFile).sentences.length
        (tasksAttrOf (dataOf sampleFile))) ∧
    ((documentChunks [sampleFile, plainFile] none).filter
        Chunk.isTabButton)[1]? =
      some (Chunk.tabButton 1 (1 == 0) (dataOf plainFile).filename
        (dataOf plainFile).events (dataOf plainFile).timexes
        (dataOf plainFile).tlinks (dataOf plainFile).sentences.length
        (tasksAttrOf (dataOf plainFile))) :=
  ⟨(one_tab_per_file [sampleFile, plainFile] none
      (List.cons_ne_nil _ _)).1,
   (one_tab_per_file [sampleFile, plainFile] none
      (List.cons_ne_nil _ _)).2.2.1 0 sampleFile rfl,
   (one_tab_per_file [sampleFile, plainFile] none
      (List.cons_ne_nil _ _)).2.2.1 1 plainFile rfl⟩

theorem allData_map_events (files : List InputFile) :
    (allData files).map (·.events) =
      files.map (fun f => (parse_file f.path f.content).events.length) := by
  simp only [allData, List.map_map]
  rfl

theorem allData_map_timexes (files : List InputFile) :
    (allData files).map (·.timexes) =
      files.map (fun f => (parse_file f.path f.content).timexes.length) := by
  simp only [allData, List.map_map]
  rfl

theorem allData_map_tlinks (files : List InputFile) :
    (allData files).map (·.tlinks) =
      files.map (fun f => (parse_file f.path f.content).tlinks.length) := by
  simp only [allData, List.map_map]
  rfl

/-- C5: the stats bar of the generated document reports corpus-wide totals
that are exactly the sums over all input files of the per-file event,
timex and tlink counts. -/
theorem totals_are_sums_of_per_file_counts (files : List InputFile)
    (d3 : Option String) :
    Chunk.statsBar files.length
      ((files.map (fun f => (parse_file f.path f.content).events.length)).sum)
      ((files.map (fun f => (parse_file f.path f.content).timexes.length)).sum)
      ((files.map (fun f => (parse_file f.path f.content).tlinks.length)).sum)
      ∈ documentChunks files d3 := by
  rw [← allData_map_events, ← allData_map_timexes, ← allData_map_tlinks]
  by_cases ht : truthy d3 <;> simp [documentChunks, ht]

theorem d3Cdn_not_mem_sentenceChunks (ss : List String) :
    ∀ j, Chunk.d3Cdn ∉ sentenceChunks j ss := by
  induction ss with
  | nil => intro j h; simp [sentenceChunks] at h
  | cons s rest ih =>
      intro j h
      simp only [sentenceChunks, List.mem_cons] at h
      rcases h with h | h
      · exact Chunk.noConfusion h
      · exact ih (j + 1) h

theorem d3Cdn_not_mem_map_relationItem (lk : List (Option String × GNode))
    (ls : List GLink) :
    Chunk.d3Cdn ∉ ls.map (relationItemOf lk) := by
  intro h
  rcases List.mem_map.mp h with ⟨l, _, hl⟩
  exact Chunk.noConfusion hl

theorem d3Cdn_not_mem_tabContentChunks (gt : List String) (i : Nat)
    (d : FileData) :
    Chunk.d3Cdn ∉ tabContentChunks gt i d := by
  intro h
  have hrel : ∀ a : GLink,
      relationItemOf (nodeLookupOf d.nodes) a ≠ Chunk.d3Cdn := by
    intro a
    simp [relationItemOf]
  by_cases hn : d.nodes.isEmpty <;> by_cases hl : d.links.isEmpty <;>
    simp [tabContentChunks, hn, hl, mkTabOpen,
      d3Cdn_not_mem_sentenceChunks, hrel] at h

theorem d3Cdn_not_mem_tabContentsChunks (ds : List FileData)
    (gt : List String) :
    ∀ i, Chunk.d3Cdn ∉ tabContentsChunks gt i ds := by
  induction ds with
  | nil => intro i h; simp [tabContentsChunks] at h
  | cons d rest ih =>
      intro i h
      rcases List.mem_append.mp h with h | h
      · exact d3Cdn_not_mem_tabContentChunks gt i d h
      · exact ih (i + 1) h

theorem d3Cdn_not_mem_tabButtonChunks (ds : List FileData) :
    ∀ i, Chunk.d3Cdn ∉ tabButtonChunks i ds := by
  induction ds with
  | nil => intro i h; simp [tabButtonChunks] at h
  | cons d rest ih =>
      intro i h
      simp only [tabButtonChunks, List.mem_cons] at h
      rcases h with h | h
      · exact Chunk.noConfusion h
      · exact ih (i + 1) h

theorem d3Cdn_not_mem_documentChunks_of_truthy (files : List InputFile)
    (d3 : Option String) (ht : truthy d3 = true) :
    Chunk.d3Cdn ∉ documentChunks files d3 := by
  intro h
  simp [documentChunks, ht, d3Cdn_not_mem_tabButtonChunks,
    d3Cdn_not_mem_tabContentsChunks] at h

/-- C3 counterexample: when `d3.v7.min.js` is missing, the generated
document contains the CDN script tag, whose text loads an external network
resource — so the report is not self-contained on every run. -/
theorem bundled_d3_counterexample :
    Chunk.d3Cdn ∈ documentChunks [sampleFile] none ∧
    externalRef Chunk.d3Cdn = true := by
  constructor
  · simp [documentChunks, truthy]
  · rfl

/-- C3 amended: when the d3 library file is present with non-empty
content, its source is embedded inline and no chunk of the document
references an external network resource; when it is absent or empty, the
CDN script tag (an external reference) is emitted instead. -/
theorem bundled_d3_amended (files : List InputFile) (s : String)
    (hs : s ≠ "") :
    Chunk.d3Inline s ∈ documentChunks files (some s) ∧
    (∀ c ∈ documentChunks files (some s), externalRef c = false) := by
  have ht : truthy (some s) = true := by simp [truthy, hs]
  constructor
  · simp [documentChunks, ht, textOrEmpty]
  · intro c hc
    cases c with
    | d3Cdn => exact absurd hc (d3Cdn_not_mem_documentChunks_of_truthy files (some s) ht)
    | _ => rfl

/-- Concrete instantiation of the amended C3 theorem. -/
theorem bundled_d3_amended_witness :
    Chunk.d3Inline "LIB" ∈ documentChunks [plainFile] (some "LIB") ∧
    externalRef (Chunk.docHead 1) = false :=
  ⟨(bundled_d3_amended [plainFile] "LIB" (by decide)).1,
   (bundled_d3_amended [plainFile] "LIB" (by decide)).2 (Chunk.docHead 1)
     (by decide)⟩

/-- C4 counterexample: changing another input file (here: removing the
tasked tlink from the first file) changes the second file's rendered
tab-content opening chunk, because the per-tab task rows come from the
corpus-wide `global_tasks` set.  The second input is the same file in both
runs. -/
theorem no_shared_state_counterexample :
    ((documentChunks [sampleFile, plainFile] none).filter
        Chunk.isTabOpen)[1]? ≠
      ((documentChunks [sampleFileNoTask, plainFile] none).filter
        Chunk.isTabOpen)[1]? ∧
    [sampleFile, plainFile].drop 1 = [plainFile] ∧
    [sampleFileNoTask, plainFile].drop 1 = [plainFile] := by
  refine ⟨?_, rfl, rfl⟩
  decide

/-- C4 amended: the records and counts built for a file depend only on that
file's contents (the `all_data` entry is a function of the file alone);
the rendered tab content additionally depends on the file's position in
the input list and on the corpus-wide set of task labels — given the same
position and the same global task set, it too depends only on the file. -/
theorem no_shared_state_amended (l1 l2 : List InputFile)
    (d3a d3b : Option String) (i j : Nat) (f : InputFile)
    (h1 : l1[i]? = some f) (h2 : l2[j]? = some f) :
    (allData l1)[i]? = some (dataOf f) ∧
    (allData l2)[j]? = some (dataOf f) ∧
    (i = j → sortStrings (globalTasks l1) = sortStrings (globalTasks l2) →
      ((documentChunks l1 d3a).filter Chunk.isTabOpen)[i]? =
        ((documentChunks l2 d3b).filter Chunk.isTabOpen)[j]? ∧
      tabContentChunks (sortStrings (globalTasks l1)) i (dataOf f) =
        tabContentChunks (sortStrings (globalTasks l2)) j (dataOf f)) := by
  refine ⟨?_, ?_, ?_⟩
  · rw [allData_getElem?, h1]
    rfl
  · rw [allData_getElem?, h2]
    rfl
  · intro hij hgt
    subst hij
    constructor
    · rw [filter_isTabOpen_documentChunks, filter_isTabOpen_documentChunks,
        tabOpenChunks_getElem?, tabOpenChunks_getElem?, allData_getElem?,
        allData_getElem?, h1, h2, hgt]
    · rw [hgt]

/-- Concrete instantiation of the amended C4 theorem: the second file's
records and tab content agree across two runs that share its position and
global task set. -/
theorem no_shared_state_amended_witness :
    (allData [brokenFile, plainFile])[1]? = some (dataOf plainFile) ∧
    ((documentChunks [brokenFile, plainFile] none).filter
        Chunk.isTabOpen)[1]? =
      ((documentChunks [sampleFileNoTask, plainFile] none).filter
        Chunk.isTabOpen)[1]? :=
  ⟨(no_shared_state_amended [brokenFile, plainFile]
      [sampleFileNoTask, plainFile] none none 1 1 plainFile rfl rfl).1,
   ((no_shared_state_amended [brokenFile, plainFile]
      [sampleFileNoTask, plainFile] none none 1 1 plainFile rfl rfl).2.2
      rfl (by decide)).1⟩

theorem filterMap_sentenceHtml_sentenceChunks (ss : List String) :
    ∀ j, (sentenceChunks j ss).filterMap sentenceHtml = ss := by
  induction ss with
  | nil => intro j; rfl
  | cons s rest ih =>
      intro j
      simp [sentenceChunks, List.filterMap_cons, sentenceHtml, ih]

theorem filterMap_sentenceHtml_map_relationItem
    (lk : List (Option String × GNode)) (ls : List GLink) :
    (ls.map (relationItemOf lk)).filterMap sentenceHtml = [] := by
  induction ls with
  | nil => rfl
  | cons l rest ih =>
      simp [List.filterMap_cons, relationItemOf, sentenceHtml, ih]

theorem filterMap_sentenceHtml_tabContentChunks (gt : List String) (i : Nat)
    (d : FileData) :
    (tabContentChunks gt i d).filterMap sentenceHtml = d.sentences := by
  by_cases hn : d.nodes.isEmpty <;> by_cases hl : d.links.isEmpty <;>
    simp [tabContentChunks, hn, hl, List.filterMap_append,
      List.filterMap_cons, mkTabOpen, sentenceHtml, relationItemOf,
      filterMap_sentenceHtml_sentenceChunks,
      filterMap_sentenceHtml_map_relationItem]

theorem noGraph_not_mem_sentenceChunks (ss : List String) :
    ∀ j, Chunk.noGraph ∉ sentenceChunks j ss := by
  induction ss with
  | nil => intro j h; simp [sentenceChunks] at h
  | cons s rest ih =>
      intro j h
      simp only [sentenceChunks, List.mem_cons] at h
      rcases h with h | h
      · exact Chunk.noConfusion h
      · exact ih (j + 1) h

theorem graphSection_not_mem_sentenceChunks (ss : List String) :
    ∀ j i ll, Chunk.graphSection i ll ∉ sentenceChunks j ss := by
  induction ss with
  | nil => intro j i ll h; simp [sentenceChunks] at h
  | cons s rest ih =>
      intro j i ll h
      simp only [sentenceChunks, List.mem_cons] at h
      rcases h with h | h
      · exact Chunk.noConfusion h
      · exact ih (j + 1) i ll h

theorem tabContentChunks_graph_dichotomy (gt : List String) (i : Nat)
    (d : FileData) :
    (d.nodes ≠ [] →
      Chunk.graphSection i relationTypes ∈ tabContentChunks gt i d ∧
      Chunk.noGraph ∉ tabContentChunks gt i d) ∧
    (d.nodes = [] →
      Chunk.noGraph ∈ tabContentChunks gt i d ∧
      ∀ ll, Chunk.graphSection i ll ∉ tabContentChunks gt i d) := by
  have hrelNoGraph : ∀ a : GLink,
      relationItemOf (nodeLookupOf d.nodes) a ≠ Chunk.noGraph := by
    intro a
    simp [relationItemOf]
  have hrelGraph : ∀ (a : GLink) (ll : List String),
      relationItemOf (nodeLookupOf d.nodes) a ≠ Chunk.graphSection i ll := by
    intro a ll
    simp [relationItemOf]
  by_cases hn : d.nodes.isEmpty
  · have hnil : d.nodes = [] := List.isEmpty_iff.mp hn
    refine ⟨fun h => absurd hnil h, fun _ => ⟨?_, ?_⟩⟩
    · simp [tabContentChunks, hn]
    · intro ll h
      by_cases hl : d.links.isEmpty <;>
        simp [tabContentChunks, hn, hl, mkTabOpen,
          graphSection_not_mem_sentenceChunks, hrelGraph] at h
  · have hnil : d.nodes ≠ [] := by
      intro h
      rw [h] at hn
      simp at hn
    refine ⟨fun _ => ⟨?_, ?_⟩, fun h => absurd h hnil⟩
    · simp [tabContentChunks, hn]
    · intro h
      by_cases hl : d.links.isEmpty <;>
        simp [tabContentChunks, hn, hl, mkTabOpen,
          noGraph_not_mem_sentenceChunks, hrelNoGraph] at h

theorem tabContentChunks_export_buttons (gt : List String) (i : Nat)
    (d : FileData) :
    Chunk.exportOpen ∈ tabContentChunks gt i d ∧
    Chunk.exportPlainText i ∈ tabContentChunks gt i d ∧
    Chunk.exportViewXml i ∈ tabContentChunks gt i d ∧
    Chunk.exportDownloadXml i ∈ tabContentChunks gt i d := by
  by_cases hn : d.nodes.isEmpty <;> by_cases hl : d.links.isEmpty <;>
    simp [tabContentChunks, hn, hl]

theorem dataOf_nodes_eq_nil_iff (f : InputFile) :
    (dataOf f).nodes = [] ↔
      (parse_file f.path f.content).events = [] ∧
      (parse_file f.path f.content).timexes = [] := by
  have hlen : (dataOf f).nodes.length =
      (parse_file f.path f.content).events.length +
        (parse_file f.path f.content).timexes.length :=
    length_buildNodes (parse_file f.path f.content)
  constructor
  · intro h
    rw [h] at hlen
    simp only [List.length_nil] at hlen
    have h1 : (parse_file f.path f.content).events.length = 0 := by omega
    have h2 : (parse_file f.path f.content).timexes.length = 0 := by omega
    exact ⟨List.length_eq_zero.mp h1, List.length_eq_zero.mp h2⟩
  · rintro ⟨h1, h2⟩
    have h0 : (dataOf f).nodes.length = 0 := by
      rw [hlen, h1, h2]
      rfl
    exact List.length_eq_zero.mp h0

theorem mem_tabContentsChunks_of_getElem (gt : List String)
    (ds : List FileData) :
    ∀ (i0 j : Nat) (d : FileData) (c : Chunk),
      ds[j]? = some d → c ∈ tabContentChunks gt (i0 + j) d →
      c ∈ tabContentsChunks gt i0 ds := by
  induction ds with
  | nil => intro i0 j d c hd _; simp at hd
  | cons d0 rest ih =>
      intro i0 j d c hd hc
      cases j with
      | zero =>
          simp only [List.getElem?_cons_zero, Option.some.injEq] at hd
          subst hd
          exact List.mem_append.mpr (Or.inl (by simpa using hc))
      | succ j =>
          simp only [List.getElem?_cons_succ] at hd
          have harith : i0 + (j + 1) = (i0 + 1) + j := by omega
          rw [harith] at hc
          exact List.mem_append.mpr (Or.inr (ih (i0 + 1) j d c hd hc))

theorem mem_documentChunks_of_mem_block (files : List InputFile)
    (d3 : Option String) (i : Nat) (f : InputFile)
    (hf : files[i]? = some f) (c : Chunk)
    (hc : c ∈ tabContentChunks (sortStrings (globalTasks files)) i
      (dataOf f)) :
    c ∈ documentChunks files d3 := by
  have hd : (allData files)[i]? = some (dataOf f) := by
    rw [allData_getElem?, hf]
    rfl
  have hmem := mem_tabContentsChunks_of_getElem
    (sortStrings (globalTasks files)) (allData files) 0 i (dataOf f) c hd
    (by simpa using hc)
  by_cases ht : truthy d3 <;> simp [documentChunks, ht] <;> tauto

/-- C7: every file's tab block contains the rendered annotated sentences in
order, the three export actions, and — exactly when the file produced at
least one event or timex node — the graph section with the six-relation
legend, with the `No temporal relations to display` placeholder appearing
exactly when there are no nodes; every chunk of the block appears in the
generated document. -/
theorem tab_sections_complete (files : List InputFile) (d3 : Option String)
    (i : Nat) (f : InputFile) (hf : files[i]? = some f) :
    ((tabContentChunks (sortStrings (globalTasks files)) i
        (dataOf f)).filterMap sentenceHtml = (dataOf f).sentences) ∧
    (Chunk.exportPlainText i ∈
        tabContentChunks (sortStrings (globalTasks files)) i (dataOf f) ∧
      Chunk.exportViewXml i ∈
        tabContentChunks (sortStrings (globalTasks files)) i (dataOf f) ∧
      Chunk.exportDownloadXml i ∈
        tabContentChunks (sortStrings (globalTasks files)) i (dataOf f)) ∧
    ((dataOf f).nodes ≠ [] →
      Chunk.graphSection i relationTypes ∈
        tabContentChunks (sortStrings (globalTasks files)) i (dataOf f) ∧
      Chunk.noGraph ∉
        tabContentChunks (sortStrings (globalTasks files)) i (dataOf f)) ∧
    ((dataOf f).nodes = [] →
      Chunk.noGraph ∈
        tabContentChunks (sortStrings (globalTasks files)) i (dataOf f) ∧
      ∀ ll, Chunk.graphSection i ll ∉
        tabContentChunks (sortStrings (globalTasks files)) i (dataOf f)) ∧
    ((dataOf f).nodes = [] ↔
      (parse_file f.path f.content).events = [] ∧
      (parse_file f.path f.content).timexes = []) ∧
    (∀ c ∈ tabContentChunks (sortStrings (globalTasks files)) i (dataOf f),
      c ∈ documentChunks files d3) := by
  refine ⟨?_, ?_, ?_, ?_, ?_, ?_⟩
  · exact filterMap_sentenceHtml_tabContentChunks _ i (dataOf f)
  · have h := tabContentChunks_export_buttons
      (sortStrings (globalTasks files)) i (dataOf f)
    exact ⟨h.2.1, h.2.2.1, h.2.2.2⟩
  · exact (tabContentChunks_graph_dichotomy _ i (dataOf f)).1
  · exact (tabContentChunks_graph_dichotomy _ i (dataOf f)).2
  · exact dataOf_nodes_eq_nil_iff f
  · intro c hc
    exact mem_documentChunks_of_mem_block files d3 i f hf c hc

/-- Concrete instantiation of the C7 theorem at the sample file (which has
nodes) and at the quiet second file. -/
theorem tab_sections_complete_witness :
    ((tabContentChunks (sortStrings (globalTasks [sampleFile, plainFile])) 0
        (dataOf sampleFile)).filterMap sentenceHtml =
      (dataOf sampleFile).sentences) ∧
    Chunk.graphSection 0 relationTypes ∈
      tabContentChunks (sortStrings (globalTasks [sampleFile, plainFile])) 0
        (dataOf sampleFile) ∧
    Chunk.exportPlainText 0 ∈
      tabContentChunks (sortStrings (globalTasks [sampleFile, plainFile])) 0
        (dataOf sampleFile) :=
  ⟨(tab_sections_complete [sampleFile, plainFile] none 0 sampleFile rfl).1,
   ((tab_sections_complete [sampleFile, plainFile] none 0 sampleFile
      rfl).2.2.1 (by decide)).1,
   (tab_sections_complete [sampleFile, plainFile] none 0 sampleFile
      rfl).2.1.1⟩

theorem fileTrace_no_write (i n : Nat) (f : InputFile) :
    ∀ e ∈ fileTrace i n f, e.isWrite = false := by
  intro e he
  cases e with
  | writeFile p =>
      exfalso
      obtain ⟨nm, pth, ct⟩ := f
      cases ct <;> simp [fileTrace] at he
  | readFile p => rfl
  | logError m => rfl
  | logInfo m => rfl

theorem filesTrace_no_write (n : Nat) (fs : List InputFile) :
    ∀ i e, e ∈ filesTrace n i fs → e.isWrite = false := by
  induction fs with
  | nil => intro i e he; simp [filesTrace] at he
  | cons f rest ih =>
      intro i e he
      rcases List.mem_append.mp he with h | h
      · exact fileTrace_no_write i n f e h
      · exact ih (i + 1) e h

theorem fileTrace_reads (i n : Nat) (f : InputFile) (p : String)
    (h : Effect.readFile p ∈ fileTrace i n f) : p = f.path := by
  obtain ⟨nm, pth, ct⟩ := f
  cases ct <;> simp [fileTrace] at h <;> tauto

theorem filesTrace_reads (n : Nat) (fs : List InputFile) :
    ∀ i p, Effect.readFile p ∈ filesTrace n i fs →
      p ∈ fs.map InputFile.path := by
  induction fs with
  | nil => intro i p h; simp [filesTrace] at h
  | cons f rest ih =>
      intro i p h
      rcases List.mem_append.mp h with h | h
      · exact List.mem_cons.mpr (Or.inl (fileTrace_reads i n f p h))
      · exact List.mem_cons.mpr (Or.inr (ih (i + 1) p h))

/-- C8 counterexample: with the d3 library present, a run also reads
`d3.v7.min.js`, which is not one of the input `.tml` files — the script
does not read only the input files. -/
theorem reads_only_inputs_counterexample :
    Effect.readFile d3Path ∈ runTrace [sampleFile] (some "LIB") "out.html" ∧
    d3Path ∉ [sampleFile].map InputFile.path := by
  constructor
  · simp [runTrace]
  · decide

/-- C8 amended: a run reads only the input files and (when present) the
bundled d3 library file; it performs exactly one write, to the output
path, and that write happens after every read, with only summary prints
following it. -/
theorem one_write_at_end (files : List InputFile) (d3 : Option String)
    (out : String) :
    ((runTrace files d3 out).filter Effect.isWrite =
      [Effect.writeFile out]) ∧
    (∀ p, Effect.readFile p ∈ runTrace files d3 out →
      p ∈ files.map InputFile.path ∨ p = d3Path) ∧
    (∃ pre post,
      runTrace files d3 out = pre ++ Effect.writeFile out :: post ∧
      (∀ e ∈ pre, e.isWrite = false) ∧
      (∀ e ∈ post, e.isRead = false ∧ e.isWrite = false)) := by
  have hft : (filesTrace files.length 1 files).filter Effect.isWrite = [] :=
    List.filter_eq_nil_iff.mpr
      (fun e he => by simp [filesTrace_no_write files.length files 1 e he])
  refine ⟨?_, ?_, ?_⟩
  · cases d3 <;>
      simp [runTrace, List.filter_append, List.filter_cons, hft,
        Effect.isWrite, summaryLogs]
  · intro p hp
    cases d3 with
    | none =>
        simp [runTrace, summaryLogs] at hp
        exact Or.inl (filesTrace_reads files.length files 1 p hp)
    | some s =>
        simp [runTrace, summaryLogs] at hp
        rcases hp with hp | hp
        · exact Or.inl (filesTrace_reads files.length files 1 p hp)
        · exact Or.inr hp
  · refine ⟨Effect.logInfo
        ("Processing " ++ toString files.length ++ " files...") ::
        (filesTrace files.length 1 files ++
          (match d3 with
           | some s =>
               [Effect.readFile d3Path,
                Effect.logInfo ("  Embedding D3.js library (" ++
                  toString s.length ++ " bytes) - fully offline version")]
           | none =>
               [Effect.logInfo
                 "  Warning: d3.v7.min.js not found, using CDN (requires internet)"])),
      summaryLogs out files.length
        (((allData files).map (·.events)).sum)
        (((allData files).map (·.timexes)).sum)
        (((allData files).map (·.tlinks)).sum), ?_, ?_, ?_⟩
    · cases d3 <;> simp [runTrace]
    · intro e he
      rcases List.mem_cons.mp he with rfl | he
      · rfl
      · rcases List.mem_append.mp he with h | h
        · exact filesTrace_no_write files.length files 1 e h
        · cases d3 <;> simp at h <;> rcases h with rfl | rfl <;> rfl
    · intro e he
      simp [summaryLogs] at he
      rcases he with rfl | rfl | rfl | rfl | rfl <;> exact ⟨rfl, rfl⟩

/-- Concrete instantiation of the amended C8 theorem. -/
theorem one_write_at_end_witness :
    ((runTrace [sampleFile] none "out.html").filter Effect.isWrite =
      [Effect.writeFile "out.html"]) ∧
    ("data/a.tml" ∈ [sampleFile].map InputFile.path ∨
      "data/a.tml" = d3Path) :=
  ⟨(one_write_at_end [sampleFile] none "out.html").1,
   (one_write_at_end [sampleFile] none "out.html").2.1 "data/a.tml"
     (by simp [runTrace, filesTrace, fileTrace, sampleFile])⟩
